import Mathlib

/-!
A shallow embedding of the `bwio` Go package (a bandwidth-throttling wrapper
for byte-stream readers and writers) and proofs about its limiter algorithm,
its reader/writer adapters and its copy helpers.

Modelling conventions:
* Go `time.Time` timestamps and `time.Duration` values are integers counting
  nanoseconds; `time.Second` is `10 ^ 9`.
* Go integer division truncates toward zero, which is `Int.tdiv` here
  (Lean's `/` on `Int` is Euclidean division and does not match Go).
* `time.Now()` readings are passed in explicitly: `limit` receives `now`
  (the reading used by `time.Since(l.start)`) and `nowR` (the reading
  observed by `reset` when a reset happens, i.e. after the sleep in the
  penalty branch).
* `time.Sleep(penalty)` is modelled by returning the slept duration as data
  (`0` when no sleep happens).
* The wrapped streams are collaborators outside the package; a read or write
  call on them is modelled by its observable result `(n, err)`.
-/

namespace Bwio

/-- One second (`time.Second`) in nanoseconds. -/
def timeSecond : Int := 1000000000

/-- Go integer division: truncation toward zero. -/
def goDiv (a b : Int) : Int := Int.tdiv a b

/-- Go integer division together with its runtime check: dividing by zero
panics, which is modelled by `none`. -/
def goDivChecked (a b : Int) : Option Int :=
  if b = 0 then none else some (goDiv a b)

/-- The limiter state, from
`type limiter struct { bandwidth int; start time.Time; bucket int64; isInitialized bool }`. -/
structure limiter where
  bandwidth : Int
  start : Int
  bucket : Int
  isInitialized : Bool
deriving Repr, DecidableEq

/-- `func (l *limiter) reset()`: zero the bucket and restart the window at
the current time `now`. -/
def limiter.reset (l : limiter) (now : Int) : limiter :=
  { l with bucket := 0, start := now }

/-- `func (l *limiter) init()`: on the first call, reset and mark
initialized; afterwards do nothing.  `now` is the `time.Now()` reading seen
by the inner `reset`. -/
def limiter.init (l : limiter) (now : Int) : limiter :=
  if !l.isInitialized then
    { l.reset now with isInitialized := true }
  else
    l

/-- `func (l *limiter) limit(n, bufSize int)`.  `now` is the `time.Now()`
reading used by `time.Since(l.start)`; `nowR` is the reading observed by
`reset` if a reset happens (after the sleep in the penalty branch).  The
result is the new limiter state together with the duration passed to
`time.Sleep` (`0` when no sleep happens). -/
def limiter.limit (l : limiter) (n bufSize : Int) (now nowR : Int) : limiter × Int :=
  if l.bandwidth ≤ 0 then
    (l, 0)
  else
    let l1 : limiter := { l with bucket := l.bucket + n }
    let bucketAge : Int := now - l1.start
    let penalty : Int := goDiv (l1.bucket * timeSecond) l1.bandwidth - bucketAge
    if 0 < penalty then
      (l1.reset nowR, penalty)
    else
      let compensation : Int := goDiv bufSize l1.bandwidth * timeSecond
      let stallThreshold : Int := timeSecond + compensation
      if stallThreshold < bucketAge then
        (l1.reset nowR, 0)
      else
        (l1, 0)

/-- `limiter.limit` with every Go division guarded by the division-by-zero
runtime check; `none` models a panic. -/
def limiter.limitChecked (l : limiter) (n bufSize : Int) (now nowR : Int) :
    Option (limiter × Int) :=
  if l.bandwidth ≤ 0 then
    some (l, 0)
  else
    let l1 : limiter := { l with bucket := l.bucket + n }
    let bucketAge : Int := now - l1.start
    (goDivChecked (l1.bucket * timeSecond) l1.bandwidth).bind fun q =>
      let penalty : Int := q - bucketAge
      if 0 < penalty then
        some (l1.reset nowR, penalty)
      else
        (goDivChecked bufSize l1.bandwidth).bind fun c =>
          let stallThreshold : Int := timeSecond + c * timeSecond
          if stallThreshold < bucketAge then
            some (l1.reset nowR, 0)
          else
            some (l1, 0)

/-- Errors surfaced by a wrapped stream.  `eof` models `io.EOF`;
`shortWrite` and `invalidWrite` model `io.ErrShortWrite` and
`io.errInvalidWrite` produced by the generic copy loop. -/
inductive GoError where
  | eof
  | shortWrite
  | invalidWrite
  | other (code : Int)
deriving Repr, DecidableEq

/-- The limiter held by the `Reader` that `NewReader(r, bandwidth)` builds:
a struct literal with only `bandwidth` set, the remaining fields keeping
their Go zero values (the zero `time.Time` is modelled as `0`). -/
def NewReader (bandwidth : Int) : limiter :=
  { bandwidth := bandwidth, start := 0, bucket := 0, isInitialized := false }

/-- The limiter held by the `Writer` that `NewWriter(d, bandwidth)` builds;
identical to the reader case. -/
def NewWriter (bandwidth : Int) : limiter :=
  { bandwidth := bandwidth, start := 0, bucket := 0, isInitialized := false }

/-- `func (r *Reader) Read(p []byte)` with the wrapped source's observable
result `(n, err)` supplied as data and `lenP = len(p)`.  `tInit` is the
`time.Now()` reading seen by a first-call `init`; `now` and `nowR` are the
readings seen inside `limit`.  The result is the limiter state after the
call, the slept duration, and the returned `(n, err)`. -/
def readStep (l : limiter) (n : Int) (err : Option GoError) (lenP : Int)
    (tInit now nowR : Int) : limiter × Int × Int × Option GoError :=
  let l0 := l.init tInit
  match err with
  | some e => (l0, 0, n, some e)
  | none =>
    let r := l0.limit n lenP now nowR
    (r.1, r.2, n, none)

/-- `func (w *Writer) Write(p []byte)` with the wrapped destination's
observable result `(n, err)` supplied as data; symmetric to `readStep`. -/
def writeStep (l : limiter) (n : Int) (err : Option GoError) (lenP : Int)
    (tInit now nowR : Int) : limiter × Int × Int × Option GoError :=
  let l0 := l.init tInit
  match err with
  | some e => (l0, 0, n, some e)
  | none =>
    let r := l0.limit n lenP now nowR
    (r.1, r.2, n, none)

/-- A wrapped byte stream endpoint, modelled as a deterministic state
machine: `step s k` is the observable outcome `(n, err, s1)` of one
read-into-a-buffer-of-length-`k` (for a source) or one
write-of-`k`-bytes (for a destination). -/
structure ByteEnd (σ : Type) where
  step : σ → Int → Int × Option GoError × σ

/-- The generic buffered copy loop of `io.CopyBuffer` (the path taken for a
source with no `WriterTo` and a destination with no `ReaderFrom`), run over
the throttled reader: each source read goes through `readStep`, so the
limiter state threads through the loop, while the destination is used
directly.  `clock k` supplies the `(tInit, now, nowR)` readings for the
`k`-th read call; `fuel` bounds the number of iterations (`none` means the
loop did not finish within `fuel`). -/
def copyLoop {σ δ : Type} (src : ByteEnd σ) (dst : ByteEnd δ)
    (clock : Nat → Int × Int × Int) (bufLen : Int) :
    Nat → Nat → limiter → σ → δ → Int → Option (Int × Option GoError)
  | 0, _, _, _, _, _ => none
  | fuel + 1, k, l, s, d, written =>
    let rr := src.step s bufLen
    let nr := rr.1
    let er := rr.2.1
    let s1 := rr.2.2
    let q := readStep l nr er bufLen (clock k).1 (clock k).2.1 (clock k).2.2
    let l1 := q.1
    if 0 < nr then
      let w := dst.step d nr
      let nw0 := w.1
      let ew0 := w.2.1
      let d1 := w.2.2
      let nw := if nw0 < 0 ∨ nr < nw0 then 0 else nw0
      let ew := if nw0 < 0 ∨ nr < nw0 then
          (match ew0 with
           | none => some GoError.invalidWrite
           | some e => some e)
        else ew0
      let written1 := written + nw
      match ew with
      | some e => some (written1, some e)
      | none =>
        if nr ≠ nw then
          some (written1, some GoError.shortWrite)
        else
          match er with
          | some e =>
            if e = GoError.eof then some (written1, none)
            else some (written1, some e)
          | none => copyLoop src dst clock bufLen fuel (k + 1) l1 s1 d1 written1
    else
      match er with
      | some e =>
        if e = GoError.eof then some (written, none) else some (written, some e)
      | none => copyLoop src dst clock bufLen fuel (k + 1) l1 s1 d written

/-- `func CopyBuffer(dst, src, bandwidth, buf)`: an empty (or nil) buffer is
replaced by a fresh 16 KiB one (`16 << 10` bytes), `src` is wrapped via
`NewReader` with the given bandwidth, and the generic buffered copy runs
with `dst` unthrottled.  `bufLen` models `len(buf)`. -/
def CopyBuffer {σ δ : Type} (src : ByteEnd σ) (dst : ByteEnd δ)
    (bandwidth : Int) (bufLen : Nat) (clock : Nat → Int × Int × Int)
    (fuel : Nat) (s : σ) (d : δ) : Option (Int × Option GoError) :=
  let bufLen1 : Nat := if bufLen = 0 then 16384 else bufLen
  copyLoop src dst clock (Int.ofNat bufLen1) fuel 0 (NewReader bandwidth) s d 0

/-- `func Copy(dst, src, bandwidth)`: delegate to `CopyBuffer` with a nil
buffer. -/
def Copy {σ δ : Type} (src : ByteEnd σ) (dst : ByteEnd δ) (bandwidth : Int)
    (clock : Nat → Int × Int × Int) (fuel : Nat) (s : σ) (d : δ) :
    Option (Int × Option GoError) :=
  CopyBuffer src dst bandwidth 0 clock fuel s d

/-- A concrete source that is immediately at end of stream, used by the
copy witnesses. -/
def srcEof : ByteEnd Int := ⟨fun s _ => (0, some GoError.eof, s)⟩

/-- A concrete destination that accepts every write in full, used by the
copy witnesses. -/
def dstAll : ByteEnd Int := ⟨fun d k => (k, none, d)⟩

/-- A constant clock schedule for the copy witnesses. -/
def clock0 : Nat → Int × Int × Int := fun _ => (0, 0, 0)

end Bwio

namespace Bwio

/-- Unfolding characterization of `limiter.limit` used by the branch
theorems below. -/
theorem limit_eq (l : limiter) (n bufSize now nowR : Int) :
    l.limit n bufSize now nowR =
      if l.bandwidth ≤ 0 then
        (l, 0)
      else if 0 < goDiv ((l.bucket + n) * timeSecond) l.bandwidth - (now - l.start) then
        ({ l with bucket := 0, start := nowR },
          goDiv ((l.bucket + n) * timeSecond) l.bandwidth - (now - l.start))
      else if timeSecond + goDiv bufSize l.bandwidth * timeSecond < now - l.start then
        ({ l with bucket := 0, start := nowR }, 0)
      else
        ({ l with bucket := l.bucket + n }, 0) := rfl

/-- Claim C1: with positive bandwidth, `limit(n, bufSize)` first increments
the bucket by `n`, computes
`penalty = bucket * time.Second / bandwidth - (now - windowStart)` in Go
integer duration arithmetic, and when the penalty is positive it sleeps for
exactly `penalty`, then resets the state (bucket `0`, window start set to
the current time at the reset) before returning. -/
theorem limit_penalty_branch (l : limiter) (n bufSize now nowR : Int)
    (hb : 0 < l.bandwidth)
    (hp : 0 < goDiv ((l.bucket + n) * timeSecond) l.bandwidth - (now - l.start)) :
    l.limit n bufSize now nowR =
      ({ bandwidth := l.bandwidth, start := nowR, bucket := 0,
         isInitialized := l.isInitialized },
        goDiv ((l.bucket + n) * timeSecond) l.bandwidth - (now - l.start)) := by
  rw [limit_eq, if_neg (not_le.mpr hb), if_pos hp]

/-- Witness for C1 at a concrete state: bandwidth 1000 B/s, bucket 0,
window started at time 0, a transfer of 500 bytes observed at `now = 0`
yields a half-second penalty and a reset at `nowR = 600000000`. -/
theorem limit_penalty_branch_witness :
    (limiter.limit ⟨1000, 0, 0, true⟩ 500 4096 0 600000000) =
      ({ bandwidth := 1000, start := 600000000, bucket := 0,
         isInitialized := true },
        goDiv ((0 + 500) * timeSecond) 1000 - (0 - 0)) :=
  limit_penalty_branch ⟨1000, 0, 0, true⟩ 500 4096 0 600000000 (by decide) (by decide)

/-- Claim C3: with non-positive bandwidth, `limit` returns immediately with
no sleep and every field of the limiter unchanged. -/
theorem limit_unlimited (l : limiter) (n bufSize now nowR : Int)
    (hb : l.bandwidth ≤ 0) :
    l.limit n bufSize now nowR = (l, 0) := by
  rw [limit_eq, if_pos hb]

/-- Witness for C3 at bandwidth `0` and negative bandwidth inputs folded
into one concrete call. -/
theorem limit_unlimited_witness :
    limiter.limit ⟨0, 5, 7, true⟩ 999 (-3) 123 456 = (⟨0, 5, 7, true⟩, 0) :=
  limit_unlimited ⟨0, 5, 7, true⟩ 999 (-3) 123 456 (by decide)

end Bwio

namespace Bwio

/-- Claim C2 is falsified on the code in two ways.  First, in the
no-penalty no-stall branch the bucket is not left unchanged: the increment
from step 2 is kept (here it grows from `0` to `5`).  Second, the claim
computes the compensation with a floor division, but Go truncates toward
zero: for `bufSize = -1`, `bandwidth = 2`, the floor reading predicts a
stall threshold of `0` exceeded by a half-second-old window, yet the code
keeps the threshold at one second and performs no reset. -/
theorem limit_stall_claim_counterexample :
    ((limiter.limit ⟨1000, 0, 0, true⟩ 5 0 timeSecond 0).1.bucket = 5 ∧
      (5 : Int) ≠ 0) ∧
    ((limiter.limit ⟨2, 0, 0, true⟩ 0 (-1) 500000000 99).1.start = 0 ∧
      timeSecond + Int.fdiv (-1) 2 * timeSecond < 500000000) := by
  refine ⟨⟨?_, by decide⟩, ⟨?_, by decide⟩⟩ <;> decide

/-- Claim C2 (amended): for `bandwidth > 0` and non-positive penalty, if the
window age exceeds `stallThreshold = 1 second + (bufSize / bandwidth)
seconds` (Go division, truncating toward zero), the limiter resets
(bucket `0`, window start set to the current time) without sleeping;
otherwise it keeps the incremented bucket (`bucket + n`), leaves the window
start unchanged, and does not sleep. -/
theorem limit_stall_branch (l : limiter) (n bufSize now nowR : Int)
    (hb : 0 < l.bandwidth)
    (hp : goDiv ((l.bucket + n) * timeSecond) l.bandwidth - (now - l.start) ≤ 0) :
    (timeSecond + goDiv bufSize l.bandwidth * timeSecond < now - l.start →
      l.limit n bufSize now nowR =
        ({ bandwidth := l.bandwidth, start := nowR, bucket := 0,
           isInitialized := l.isInitialized }, 0)) ∧
    (¬ timeSecond + goDiv bufSize l.bandwidth * timeSecond < now - l.start →
      l.limit n bufSize now nowR =
        ({ bandwidth := l.bandwidth, start := l.start, bucket := l.bucket + n,
           isInitialized := l.isInitialized }, 0)) := by
  rw [limit_eq, if_neg (not_le.mpr hb), if_neg (not_lt.mpr hp)]
  constructor
  · intro hst
    rw [if_pos hst]
  · intro hst
    rw [if_neg hst]

/-- Witness for the amended C2 at a concrete state: bandwidth 1000 B/s,
5 bytes through a zero-length buffer, a one-second-old window. -/
theorem limit_stall_branch_witness :
    (timeSecond + goDiv 0 1000 * timeSecond < timeSecond - 0 →
      limiter.limit ⟨1000, 0, 0, true⟩ 5 0 timeSecond 77 =
        ({ bandwidth := 1000, start := 77, bucket := 0,
           isInitialized := true }, 0)) ∧
    (¬ timeSecond + goDiv 0 1000 * timeSecond < timeSecond - 0 →
      limiter.limit ⟨1000, 0, 0, true⟩ 5 0 timeSecond 77 =
        ({ bandwidth := 1000, start := 0, bucket := 0 + 5,
           isInitialized := true }, 0)) :=
  limit_stall_branch ⟨1000, 0, 0, true⟩ 5 0 timeSecond 77 (by decide) (by decide)

/-- Claim C4: whenever the wrapped source or destination returns a non-nil
error (`io.EOF` included), the wrapper returns the count and that exact
error value unchanged, and `limiter.limit` is not invoked: the limiter state
after the call is exactly `init`'s output, independent of the `limit`
timestamps. -/
theorem error_passthrough (l : limiter) (n : Int) (e : GoError)
    (lenP tInit now nowR : Int) :
    readStep l n (some e) lenP tInit now nowR = (l.init tInit, 0, n, some e) ∧
    writeStep l n (some e) lenP tInit now nowR = (l.init tInit, 0, n, some e) :=
  ⟨rfl, rfl⟩

/-- Claim C5: `limit` never panics: with every Go division guarded by the
division-by-zero runtime check, the checked run always succeeds and agrees
with the unchecked model, for every bandwidth (zero and negative included)
and every `n` and `bufSize`. -/
theorem limit_never_panics (l : limiter) (n bufSize now nowR : Int) :
    l.limitChecked n bufSize now nowR = some (l.limit n bufSize now nowR) := by
  by_cases hb : l.bandwidth ≤ 0
  · simp [limiter.limitChecked, limiter.limit, hb]
  · have hz : l.bandwidth ≠ 0 := fun h => hb (le_of_eq h)
    simp only [limiter.limitChecked, limiter.limit, hb, if_false, goDivChecked,
      hz, ite_false, Option.some_bind]
    split_ifs <;> rfl

/-- For `0 < b`, `0 ≤ k` and `a ≤ -(k * b)`, Go division of `a` by `b` is at
most `-k`. -/
theorem goDiv_le_neg (a b k : Int) (hb : 0 < b) (hk : 0 ≤ k)
    (h : a ≤ -(k * b)) : goDiv a b ≤ -k := by
  have hkb : 0 ≤ k * b := mul_nonneg hk (le_of_lt hb)
  have ha : 0 ≤ -a := by omega
  have h1 : Int.tdiv a b = -(Int.tdiv (-a) b) := by
    rw [Int.neg_tdiv, neg_neg]
  have h2 : Int.tdiv (-a) b = (-a) / b := Int.tdiv_eq_ediv ha (le_of_lt hb)
  have h3 : k ≤ (-a) / b := (Int.le_ediv_iff_mul_le hb).mpr (by omega)
  unfold goDiv
  rw [h1, h2]
  linarith

/-- For `0 < b` and `-b < a < 0`, Go division of `a` by `b` truncates to
zero. -/
theorem goDiv_eq_zero_of_small (a b : Int) (hb : 0 < b) (ha : -b < a)
    (ha2 : a < 0) : goDiv a b = 0 := by
  have h1 : Int.tdiv a b = -(Int.tdiv (-a) b) := by
    rw [Int.neg_tdiv, neg_neg]
  have h2 : Int.tdiv (-a) b = (-a) / b := Int.tdiv_eq_ediv (by omega) (le_of_lt hb)
  have h3 : (-a) / b = 0 := Int.ediv_eq_zero_of_lt (by omega) (by omega)
  unfold goDiv
  rw [h1, h2, h3, neg_zero]

end Bwio

namespace Bwio

/-- Claim C6: `Copy(dst, src, bandwidth)` equals
`CopyBuffer(dst, src, bandwidth, nil)`; and a `CopyBuffer` call with an
empty buffer uses a fresh 16384-byte buffer in its place, wraps `src` in a
throttled `Reader` with the given bandwidth via `NewReader`, and performs
the generic buffered copy with `dst` unthrottled. -/
theorem copy_eq_copyBuffer_nil {σ δ : Type} (src : ByteEnd σ) (dst : ByteEnd δ)
    (bandwidth : Int) (clock : Nat → Int × Int × Int) (fuel : Nat)
    (s : σ) (d : δ) (bufLen : Nat) (h : bufLen = 0) :
    Copy src dst bandwidth clock fuel s d =
      CopyBuffer src dst bandwidth 0 clock fuel s d ∧
    CopyBuffer src dst bandwidth bufLen clock fuel s d =
      copyLoop src dst clock (Int.ofNat 16384) fuel 0 (NewReader bandwidth) s d 0 := by
  subst h
  exact ⟨rfl, rfl⟩

/-- Witness for C6 with a concrete end-of-stream source, an
accept-everything destination, and one unit of loop fuel. -/
theorem copy_eq_copyBuffer_nil_witness :
    Copy srcEof dstAll 7 clock0 1 0 0 =
      CopyBuffer srcEof dstAll 7 0 clock0 1 0 0 ∧
    CopyBuffer srcEof dstAll 7 0 clock0 1 0 0 =
      copyLoop srcEof dstAll clock0 (Int.ofNat 16384) 1 0 (NewReader 7) 0 0 0 :=
  copy_eq_copyBuffer_nil srcEof dstAll 7 clock0 1 0 0 0 rfl

/-- Claim C7: under `0 ≤ n` and a non-negative bucket, every limiter
operation preserves non-negativity of the bucket and never modifies the
bandwidth field; `limit` either leaves the bucket and window start alone
(unlimited mode), grows the bucket by `n` inside the unchanged window with
no sleep, or zeroes the bucket while restarting the window; and with
positive bandwidth the bucket ends at zero exactly when the penalty branch
fires, the stall branch fires, or the incremented bucket was already
zero. -/
theorem limiter_invariant (l : limiter) (n bufSize now nowR t : Int)
    (hn : 0 ≤ n) (hb : 0 ≤ l.bucket) :
    ((l.init t).bandwidth = l.bandwidth ∧ 0 ≤ (l.init t).bucket) ∧
    ((l.reset t).bandwidth = l.bandwidth ∧ 0 ≤ (l.reset t).bucket) ∧
    ((l.limit n bufSize now nowR).1.bandwidth = l.bandwidth ∧
      0 ≤ (l.limit n bufSize now nowR).1.bucket) ∧
    (((l.limit n bufSize now nowR).1.bucket = l.bucket ∧
        (l.limit n bufSize now nowR).1.start = l.start ∧
        (l.limit n bufSize now nowR).2 = 0) ∨
      ((l.limit n bufSize now nowR).1.bucket = l.bucket + n ∧
        (l.limit n bufSize now nowR).1.start = l.start ∧
        (l.limit n bufSize now nowR).2 = 0) ∨
      ((l.limit n bufSize now nowR).1.bucket = 0 ∧
        (l.limit n bufSize now nowR).1.start = nowR)) ∧
    (0 < l.bandwidth →
      ((l.limit n bufSize now nowR).1.bucket = 0 ↔
        0 < goDiv ((l.bucket + n) * timeSecond) l.bandwidth - (now - l.start) ∨
        timeSecond + goDiv bufSize l.bandwidth * timeSecond < now - l.start ∨
        l.bucket + n = 0)) := by
  have hinit : (l.init t).bandwidth = l.bandwidth ∧ 0 ≤ (l.init t).bucket := by
    cases hi : l.isInitialized <;> simp [limiter.init, limiter.reset, hi, hb]
  refine ⟨hinit, ⟨rfl, le_refl 0⟩, ?_⟩
  rw [limit_eq]
  split_ifs with h1 h2 h3
  · exact ⟨⟨rfl, hb⟩, Or.inl ⟨rfl, rfl, rfl⟩, fun hbw => absurd hbw (by omega)⟩
  · exact ⟨⟨rfl, le_refl 0⟩, Or.inr (Or.inr ⟨rfl, rfl⟩),
      fun _ => ⟨fun _ => Or.inl h2, fun _ => rfl⟩⟩
  · exact ⟨⟨rfl, le_refl 0⟩, Or.inr (Or.inr ⟨rfl, rfl⟩),
      fun _ => ⟨fun _ => Or.inr (Or.inl h3), fun _ => rfl⟩⟩
  · refine ⟨⟨rfl, (by omega : (0 : Int) ≤ l.bucket + n)⟩,
      Or.inr (Or.inl ⟨rfl, rfl, rfl⟩), fun _ => ?_⟩
    constructor
    · intro hz
      exact Or.inr (Or.inr hz)
    · rintro (hc | hc | hc)
      · exact absurd hc h2
      · exact absurd hc h3
      · exact hc

/-- Witness for C7 at a concrete state: bandwidth 1000 B/s, empty bucket,
3 bytes through a 64-byte buffer, a one-second-old window. -/
theorem limiter_invariant_witness :
    ((limiter.init ⟨1000, 0, 0, true⟩ 2).bandwidth = 1000 ∧
      0 ≤ (limiter.init ⟨1000, 0, 0, true⟩ 2).bucket) ∧
    ((limiter.reset ⟨1000, 0, 0, true⟩ 2).bandwidth = 1000 ∧
      0 ≤ (limiter.reset ⟨1000, 0, 0, true⟩ 2).bucket) ∧
    ((limiter.limit ⟨1000, 0, 0, true⟩ 3 64 timeSecond 7).1.bandwidth = 1000 ∧
      0 ≤ (limiter.limit ⟨1000, 0, 0, true⟩ 3 64 timeSecond 7).1.bucket) ∧
    (((limiter.limit ⟨1000, 0, 0, true⟩ 3 64 timeSecond 7).1.bucket = 0 ∧
        (limiter.limit ⟨1000, 0, 0, true⟩ 3 64 timeSecond 7).1.start = 0 ∧
        (limiter.limit ⟨1000, 0, 0, true⟩ 3 64 timeSecond 7).2 = 0) ∨
      ((limiter.limit ⟨1000, 0, 0, true⟩ 3 64 timeSecond 7).1.bucket = 0 + 3 ∧
        (limiter.limit ⟨1000, 0, 0, true⟩ 3 64 timeSecond 7).1.start = 0 ∧
        (limiter.limit ⟨1000, 0, 0, true⟩ 3 64 timeSecond 7).2 = 0) ∨
      ((limiter.limit ⟨1000, 0, 0, true⟩ 3 64 timeSecond 7).1.bucket = 0 ∧
        (limiter.limit ⟨1000, 0, 0, true⟩ 3 64 timeSecond 7).1.start = 7)) ∧
    (0 < (1000 : Int) →
      ((limiter.limit ⟨1000, 0, 0, true⟩ 3 64 timeSecond 7).1.bucket = 0 ↔
        0 < goDiv ((0 + 3) * timeSecond) 1000 - (timeSecond - 0) ∨
        timeSecond + goDiv 64 1000 * timeSecond < timeSecond - 0 ∨
        (0 : Int) + 3 = 0)) :=
  limiter_invariant ⟨1000, 0, 0, true⟩ 3 64 timeSecond 7 2 (by decide) (by decide)

/-- Claim C8: `NewReader` and `NewWriter` build the limiter with
`isInitialized = false` and the window start at its zero value; the first
`init` call sets the window start to the current time, zeroes the bucket
and marks the limiter initialized; any further `init` call is the identity
(`init` composed with `init` equals `init`). -/
theorem init_lazy_idempotent (bw t t2 t3 : Int) (l l2 : limiter)
    (h : l.isInitialized = false) :
    (NewReader bw).isInitialized = false ∧ (NewReader bw).start = 0 ∧
    (NewWriter bw).isInitialized = false ∧ (NewWriter bw).start = 0 ∧
    l.init t = ⟨l.bandwidth, t, 0, true⟩ ∧
    (l2.init t2).init t3 = l2.init t2 := by
  refine ⟨rfl, rfl, rfl, rfl, ?_, ?_⟩
  · simp [limiter.init, limiter.reset, h]
  · cases hi : l2.isInitialized <;> simp [limiter.init, limiter.reset, hi]

/-- Witness for C8 at bandwidth 5 with concrete clock readings. -/
theorem init_lazy_idempotent_witness :
    (NewReader 5).isInitialized = false ∧ (NewReader 5).start = 0 ∧
    (NewWriter 5).isInitialized = false ∧ (NewWriter 5).start = 0 ∧
    limiter.init ⟨5, 0, 0, false⟩ 9 = ⟨5, 9, 0, true⟩ ∧
    limiter.init (limiter.init ⟨7, 1, 2, true⟩ 11) 13 =
      limiter.init ⟨7, 1, 2, true⟩ 11 :=
  init_lazy_idempotent 5 9 11 13 ⟨5, 0, 0, false⟩ ⟨7, 1, 2, true⟩ (by decide)

/-- Claim C9: if the very first `Read` or `Write` call fails with an error
from the wrapped stream, the limiter is nonetheless initialized by that
call: `init` runs before the delegated I/O, so `isInitialized` flips to
`true` and the window start becomes the time of the first attempted call,
while the bucket stays `0` and `limit` is never invoked (the result does
not depend on the `limit` timestamps). -/
theorem first_call_error_initializes (l : limiter) (n : Int) (e : GoError)
    (lenP tInit now nowR : Int) (h : l.isInitialized = false) :
    readStep l n (some e) lenP tInit now nowR =
      (⟨l.bandwidth, tInit, 0, true⟩, 0, n, some e) ∧
    writeStep l n (some e) lenP tInit now nowR =
      (⟨l.bandwidth, tInit, 0, true⟩, 0, n, some e) := by
  constructor <;> simp [readStep, writeStep, limiter.init, limiter.reset, h]

/-- Witness for C9: an uninitialized limiter with a stale bucket value, a
failing first call at time 10. -/
theorem first_call_error_initializes_witness :
    readStep ⟨3, 1, 4, false⟩ 2 (some (GoError.other 42)) 8 10 20 30 =
      (⟨3, 10, 0, true⟩, 0, 2, some (GoError.other 42)) ∧
    writeStep ⟨3, 1, 4, false⟩ 2 (some (GoError.other 42)) 8 10 20 30 =
      (⟨3, 10, 0, true⟩, 0, 2, some (GoError.other 42)) :=
  first_call_error_initializes ⟨3, 1, 4, false⟩ 2 (GoError.other 42) 8 10 20 30
    (by decide)

/-- Claim C10 is falsified on the code: for `bufSize = -1` and
`bandwidth = 2` the compensation truncates to `0`, so the stall threshold
stays exactly one second rather than strictly below it, and a window of age
exactly one second (older than any sub-second threshold) is not reset. -/
theorem stall_threshold_counterexample :
    ¬ (timeSecond + goDiv (-1) 2 * timeSecond < timeSecond) ∧
    (limiter.limit ⟨2, 0, 0, true⟩ 0 (-1) timeSecond 99).1.start = 0 := by
  constructor <;> decide

/-- Claim C10 (amended): for `bandwidth > 0` and `bufSize < 0`, the
compensation `bufSize / bandwidth` truncates toward zero to a non-positive
value, so `stallThreshold = 1 second + compensation` is at most one second
(equal to one second when `-bandwidth < bufSize < 0`), is at most zero once
`bufSize ≤ -bandwidth`, and is negative for `bufSize ≤ -2 * bandwidth`; the
threshold is not clamped below at one second, so with non-positive penalty
a window older than the reduced threshold is reset as a stall. -/
theorem stall_threshold_negative_bufsize (l : limiter) (n bufSize now nowR : Int)
    (hbw : 0 < l.bandwidth) (hneg : bufSize < 0) :
    goDiv bufSize l.bandwidth * timeSecond ≤ 0 ∧
    timeSecond + goDiv bufSize l.bandwidth * timeSecond ≤ timeSecond ∧
    (-l.bandwidth < bufSize →
      timeSecond + goDiv bufSize l.bandwidth * timeSecond = timeSecond) ∧
    (bufSize ≤ -l.bandwidth →
      timeSecond + goDiv bufSize l.bandwidth * timeSecond ≤ 0) ∧
    (bufSize ≤ -(2 * l.bandwidth) →
      timeSecond + goDiv bufSize l.bandwidth * timeSecond < 0) ∧
    (goDiv ((l.bucket + n) * timeSecond) l.bandwidth - (now - l.start) ≤ 0 →
      timeSecond + goDiv bufSize l.bandwidth * timeSecond < now - l.start →
      l.limit n bufSize now nowR =
        ({ bandwidth := l.bandwidth, start := nowR, bucket := 0,
           isInitialized := l.isInitialized }, 0)) := by
  have hts : (0 : Int) < timeSecond := by decide
  have h0 : goDiv bufSize l.bandwidth ≤ 0 := by
    have := goDiv_le_neg bufSize l.bandwidth 0 hbw le_rfl (by omega)
    simpa using this
  have hm0 : goDiv bufSize l.bandwidth * timeSecond ≤ 0 := by
    have := mul_le_mul_of_nonneg_right h0 (le_of_lt hts)
    simpa using this
  refine ⟨hm0, by linarith, ?_, ?_, ?_, ?_⟩
  · intro h
    have hz : goDiv bufSize l.bandwidth = 0 :=
      goDiv_eq_zero_of_small bufSize l.bandwidth hbw h hneg
    rw [hz, zero_mul, add_zero]
  · intro h
    have h1 : goDiv bufSize l.bandwidth ≤ -1 :=
      goDiv_le_neg bufSize l.bandwidth 1 hbw (by omega) (by omega)
    have := mul_le_mul_of_nonneg_right h1 (le_of_lt hts)
    linarith [this]
  · intro h
    have h2 : goDiv bufSize l.bandwidth ≤ -2 :=
      goDiv_le_neg bufSize l.bandwidth 2 hbw (by omega) (by omega)
    have := mul_le_mul_of_nonneg_right h2 (le_of_lt hts)
    linarith [this]
  · intro hpen hst
    rw [limit_eq, if_neg (not_le.mpr hbw), if_neg (not_lt.mpr hpen), if_pos hst]

/-- Witness for the amended C10: bandwidth 2 B/s and a buffer size of
`-4` bytes. -/
theorem stall_threshold_negative_bufsize_witness :
    goDiv (-4) 2 * timeSecond ≤ 0 ∧
    timeSecond + goDiv (-4) 2 * timeSecond ≤ timeSecond ∧
    ((-2 : Int) < -4 → timeSecond + goDiv (-4) 2 * timeSecond = timeSecond) ∧
    ((-4 : Int) ≤ -2 → timeSecond + goDiv (-4) 2 * timeSecond ≤ 0) ∧
    ((-4 : Int) ≤ -(2 * 2) → timeSecond + goDiv (-4) 2 * timeSecond < 0) ∧
    (goDiv ((0 + 0) * timeSecond) 2 - (0 - 0) ≤ 0 →
      timeSecond + goDiv (-4) 2 * timeSecond < 0 - 0 →
      limiter.limit ⟨2, 0, 0, true⟩ 0 (-4) 0 5 =
        ({ bandwidth := 2, start := 5, bucket := 0,
           isInitialized := true }, 0)) :=
  stall_threshold_negative_bufsize ⟨2, 0, 0, true⟩ 0 (-4) 0 5 (by decide) (by decide)

end Bwio
